import Mathlib

/-!
Verification development for the MapUp assessment solution.

The definitions below are a shallow embedding of the two Python source
files `Submission/python_task_1.py` and `Submission/python_task_2.py`.
Edge weights are modelled as integers (the decidable fragment of the
numeric values the claims mention) and `car` column values as exact
rationals.  pandas DataFrames are modelled by explicit label lists plus
cell grids, and library calls (networkx shortest paths, pd.cut,
value_counts) are embedded by their documented semantics.
-/

namespace Submission

/-- Identifier of a toll location: a value of the id_start or id_end
column of the input table of calculate_distance_matrix. -/
abbrev LocationId := ℕ

/-- One row of the input table of calculate_distance_matrix
(python_task_2.py, lines 23-24): a start location, an end location and a
numeric distance. -/
structure Edge where
  id_start : LocationId
  id_end : LocationId
  distance : ℤ
  deriving DecidableEq

/-- Boolean test whether edge e joins the unordered pair of locations
u and v.  networkx graphs are undirected, so both orientations match
(python_task_2.py, line 24). -/
def matchesPair (u v : LocationId) (e : Edge) : Bool :=
  decide (e.id_start = u ∧ e.id_end = v) || decide (e.id_start = v ∧ e.id_end = u)

/-- Weight of the edge between u and v in the graph G built at lines
20-24 of python_task_2.py.  G.add_edge overwrites the distance attribute
of an already present edge, so the last occurrence of an unordered pair
in the edge list wins; none means the pair is not adjacent. -/
def edgeWeight (df : List Edge) (u v : LocationId) : Option ℤ :=
  (df.reverse.find? (matchesPair u v)).map Edge.distance

/-- Vertex set of the graph G: every location mentioned as an endpoint
of some edge (G.add_edge inserts both of its endpoints). -/
def nodes (df : List Edge) : List LocationId :=
  (df.map Edge.id_start ++ df.map Edge.id_end).dedup

/-- All lists of length k whose members come from xs. -/
def tuples (xs : List LocationId) : Nat → List (List LocationId)
  | 0 => [[]]
  | k + 1 => xs.flatMap fun x => (tuples xs k).map (x :: ·)

/-- All duplicate-free vertex lists over the graph vertex set: the
candidate simple paths. -/
def pathCandidates (df : List Edge) : List (List LocationId) :=
  ((List.range ((nodes df).length + 1)).flatMap (tuples (nodes df))).filter
    fun p => decide p.Nodup

/-- Boolean test that consecutive vertices of the list are adjacent in
the graph of df. -/
def chainB (df : List Edge) : List LocationId → Bool
  | [] => true
  | [_] => true
  | a :: b :: t => (edgeWeight df a b).isSome && chainB df (b :: t)

/-- Boolean test that p is a simple path from u to v. -/
def isPathB (df : List Edge) (u v : LocationId) (p : List LocationId) : Bool :=
  decide (p.head? = some u) && decide (p.getLast? = some v) && chainB df p

/-- All simple paths from u to v over the graph of df. -/
def pathsBetween (df : List Edge) (u v : LocationId) : List (List LocationId) :=
  (pathCandidates df).filter (isPathB df u v)

/-- Total weight of a vertex list: sum of the weights of its consecutive
edges. -/
def weightOf (df : List Edge) : List LocationId → ℤ
  | a :: b :: t => (edgeWeight df a b).getD 0 + weightOf df (b :: t)
  | _ => 0

/-- Minimum of a list of integers, none on the empty list. -/
def listMin : List ℤ → Option ℤ
  | [] => none
  | x :: t =>
    match listMin t with
    | none => some x
    | some m => some (min x m)

/-- Shallow embedding of the library call
nx.all_pairs_dijkstra_path_length (python_task_2.py, line 27) by its
documented semantics: v is a key of the dict of source u exactly when v
is reachable from u, and its value is then the least total weight of a
path from u to v.  For the non-negative weights Dijkstra's algorithm
demands, this minimum over simple paths is the shortest-path
distance. -/
def spDist (df : List Edge) (u v : LocationId) : Option ℤ :=
  listMin ((pathsBetween df u v).map (weightOf df))

/-- Two locations lie in the same connected component of the graph of df
exactly when some path of edges joins them. -/
def Connected (df : List Edge) (u v : LocationId) : Prop :=
  pathsBetween df u v ≠ []

instance (df : List Edge) (u v : LocationId) : Decidable (Connected df u v) :=
  decidable_of_iff (pathsBetween df u v ≠ []) Iff.rfl

/-- Row and column labels of the produced matrix (python_task_2.py, line
30): sorted(df['id_start'].unique()).  Only the id_start column is
consulted. -/
def tollLocations (df : List Edge) : List LocationId :=
  List.insertionSort (· ≤ ·) (df.map Edge.id_start).dedup

/-- The distance matrix DataFrame (python_task_2.py, line 33): one label
list indexing both the rows and the columns, plus the grid of cells.  A
cell holds none where the source stores None (the unknown marker). -/
structure DistanceMatrix where
  labels : List LocationId
  rows : List (List (Option ℤ))
  deriving DecidableEq

/-- Value stored at row i, column j by the population loop
(python_task_2.py, lines 36-48): 0 on the diagonal; otherwise the
shortest-path distance looked up first as (i, j) and then as (j, i)
in the all-pairs dict, and None when neither lookup succeeds. -/
def cellValue (df : List Edge) (i j : LocationId) : Option ℤ :=
  if i = j then some 0
  else if i ∈ nodes df ∧ (spDist df i j).isSome then spDist df i j
  else if j ∈ nodes df ∧ (spDist df j i).isSome then spDist df j i
  else none

/-- The matrix built by calculate_distance_matrix, without the error
channel. -/
def calcMatrix (df : List Edge) : DistanceMatrix :=
  ⟨tollLocations df,
    (tollLocations df).map fun i => (tollLocations df).map fun j => cellValue df i j⟩

/-- Error kind the specification names for rejected inputs. -/
inductive DMErr where
  | invalidInput
  deriving DecidableEq

/-- Embedding of calculate_distance_matrix (python_task_2.py, lines
7-50).  The source performs no input validation at all: it never raises
an InvalidInput error, and on the empty edge list it returns the empty
matrix.  The Except layer makes the specification's error claims
statable; the code only ever takes the ok branch.  (On negative weights
the underlying library call may raise its own ValueError, which is not
the specification's InvalidInput; theorems about cell contents therefore
carry the non-negativity hypothesis under which the embedding of the
library call is exact.) -/
def calculate_distance_matrix (df : List Edge) : Except DMErr DistanceMatrix :=
  Except.ok (calcMatrix df)

/-- Index of the first occurrence of x in a label list. -/
def idxOf? (x : LocationId) : List LocationId → Option Nat
  | [] => none
  | y :: t => if y = x then some 0 else (idxOf? x t).map (· + 1)

/-- Cell lookup distance_matrix.loc[i, j]: none when either label is
absent from the index (pandas raises KeyError there), otherwise the
stored cell. -/
def getCell (m : DistanceMatrix) (i j : LocationId) : Option (Option ℤ) :=
  match idxOf? i m.labels, idxOf? j m.labels with
  | some a, some b =>
    match m.rows[a]? with
    | some r => r[b]?
    | none => none
  | _, _ => none

/-- Specification-side definition of the matrix labels, following the
spec's words: the sorted set of all distinct LocationIds that appear as
an endpoint (either id_start or id_end) of any edge.  It is compared
against the labels the code actually produces. -/
def endpointLabels (df : List Edge) : List LocationId :=
  List.insertionSort (· ≤ ·) (df.map Edge.id_start ++ df.map Edge.id_end).dedup

/-- Squareness of a matrix: as many rows as labels, and each row as long
as the label list. -/
def isSquare (m : DistanceMatrix) : Prop :=
  m.rows.length = m.labels.length ∧ ∀ r ∈ m.rows, r.length = m.labels.length

instance (m : DistanceMatrix) : Decidable (isSquare m) :=
  decidable_of_iff
    (m.rows.length = m.labels.length ∧ ∀ r ∈ m.rows, r.length = m.labels.length) Iff.rfl

/-- Python error raised by unroll_distance_matrix. -/
inductive PyErr where
  | nameError (missing : String)
  deriving DecidableEq

/-- Names bound at module scope by python_task_2.py: the import aliases
(lines 2-5) and the five function definitions.  No top-level statement
binds distance_matrix; the only distance_matrix is a local variable of
calculate_distance_matrix. -/
def moduleBindings : List String :=
  ["pd", "nx", "datetime", "dt",
   "calculate_distance_matrix", "unroll_distance_matrix",
   "find_ids_within_ten_percentage_threshold", "calculate_toll_rate",
   "calculate_time_based_toll_rates"]

/-- The module's global environment restricted to DataFrame values: none
of the names of moduleBindings is bound to a DataFrame, so looking up a
DataFrame-valued global fails for every name. -/
def moduleFrameEnv (g : String) : Option DistanceMatrix := none

/-- The loop of unroll_distance_matrix (python_task_2.py, lines 66-79)
applied to whatever DataFrame the name distance_matrix would denote: all
ordered pairs of distinct labels, each with its stored cell. -/
def unrollOf (g : DistanceMatrix) : List (LocationId × LocationId × Option ℤ) :=
  g.labels.flatMap fun i =>
    (g.labels.filter fun j => decide (i ≠ j)).map fun j => (i, j, (getCell g i j).join)

/-- Embedding of unroll_distance_matrix (python_task_2.py, lines 55-81).
The function receives df but its loop iterates over the free global name
distance_matrix, resolved in the module environment; an unbound name
makes Python raise NameError before the first iteration. -/
def unroll_distance_matrix (globalsEnv : String → Option DistanceMatrix)
    (df : DistanceMatrix) : Except PyErr (List (LocationId × LocationId × Option ℤ)) :=
  let gname : String := "distance_matrix"
  match globalsEnv gname with
  | none => Except.error (PyErr.nameError gname)
  | some g => Except.ok (unrollOf g)

/-- Table of numeric cell values for python_task_1.py: matrices of
Python floats are idealised as exact rationals. -/
abbrev Grid := List (List ℚ)

/-- Round to the nearest integer, ties to even: the rounding mode of
pandas/numpy .round and of Python's round. -/
def roundHalfEven (x : ℚ) : ℤ :=
  if x - ⌊x⌋ < 1 / 2 then ⌊x⌋
  else if 1 / 2 < x - ⌊x⌋ then ⌊x⌋ + 1
  else if Even ⌊x⌋ then ⌊x⌋ else ⌊x⌋ + 1

/-- DataFrame.round(1): round every value to one decimal place. -/
def round1 (x : ℚ) : ℚ := (roundHalfEven (10 * x) : ℚ) / 10

/-- The applymap lambda of multiply_matrix (python_task_1.py, line
118). -/
def applymapFn (x : ℚ) : ℚ := if x > 20 then x * 0.75 else x * 1.25

/-- Embedding of multiply_matrix (python_task_1.py, lines 104-123).  The
first component is the returned DataFrame; the second component is the
final value of the caller's argument.  The source copies its input and
then applies only non-mutating operations (applymap and round both
return new frames), so the argument's final value is its initial
value. -/
def multiply_matrix (input_matrix : Grid) : Grid × Grid :=
  let modified_matrix := input_matrix
  let modified_matrix := modified_matrix.map (List.map applymapFn)
  let modified_matrix := modified_matrix.map (List.map round1)
  (modified_matrix, input_matrix)

/-- Code-point lexicographic comparison of character lists: the ordering
Python's sorted uses on str keys. -/
def charsLe : List Char → List Char → Bool
  | [], _ => true
  | _ :: _, [] => false
  | x :: xs, y :: ys =>
    if x.toNat < y.toNat then true
    else if y.toNat < x.toNat then false
    else charsLe xs ys

/-- String comparison: a is at most b in code-point lexicographic
order. -/
def strLe (a b : String) : Bool := charsLe a.toList b.toList

/-- The bucket pd.cut assigns to a car value, with right-closed bins
(-inf, 15], (15, 25], (25, inf) (python_task_1.py, lines 40-41). -/
def carType (x : ℚ) : String :=
  if x ≤ 15 then "low" else if x ≤ 25 then "medium" else "high"

/-- The three category labels of the cut. -/
def categoryLabels : List String := ["low", "medium", "high"]

/-- Embedding of get_type_count (python_task_1.py, lines 29-49):
value_counts over the categorical car_type column counts every category
label (including empty ones), and the resulting dict is rebuilt with its
keys sorted alphabetically. -/
def get_type_count (car : List ℚ) : List (String × ℕ) :=
  (List.insertionSort (fun a b => strLe a b = true) categoryLabels).map
    fun k => (k, (car.filter fun x => decide (carType x = k)).length)

/-! Helper lemmas about the graph embedding. -/

lemma matchesPair_symm (u v : LocationId) : matchesPair u v = matchesPair v u := by
  funext e
  simp only [matchesPair]
  exact Bool.or_comm _ _

lemma edgeWeight_symm (df : List Edge) (u v : LocationId) :
    edgeWeight df u v = edgeWeight df v u := by
  unfold edgeWeight
  rw [matchesPair_symm]

lemma mem_tuples {xs : List LocationId} :
    ∀ {k : ℕ} {p : List LocationId},
      p ∈ tuples xs k ↔ p.length = k ∧ ∀ x ∈ p, x ∈ xs := by
  intro k
  induction k with
  | zero =>
    intro p
    constructor
    · intro h
      rw [tuples, List.mem_singleton] at h
      subst h
      simp
    · rintro ⟨h, _⟩
      rw [List.length_eq_zero] at h
      subst h
      rw [tuples]
      simp
  | succ k ih =>
    intro p
    constructor
    · intro h
      simp only [tuples, List.mem_flatMap, List.mem_map] at h
      obtain ⟨x, hx, q, hq, rfl⟩ := h
      obtain ⟨hlen, hsub⟩ := ih.mp hq
      refine ⟨by simp [hlen], ?_⟩
      intro y hy
      rcases List.mem_cons.mp hy with rfl | hy
      · exact hx
      · exact hsub y hy
    · rintro ⟨hlen, hsub⟩
      cases p with
      | nil => simp at hlen
      | cons x q =>
        simp only [tuples, List.mem_flatMap, List.mem_map]
        refine ⟨x, hsub x (by simp), q,
          ih.mpr ⟨by simpa using hlen, fun y hy => hsub y (List.mem_cons_of_mem _ hy)⟩, rfl⟩

lemma nodes_nodup (df : List Edge) : (nodes df).Nodup := List.nodup_dedup _

lemma mem_pathCandidates {df : List Edge} {p : List LocationId} :
    p ∈ pathCandidates df ↔ p.Nodup ∧ ∀ x ∈ p, x ∈ nodes df := by
  unfold pathCandidates
  rw [List.mem_filter]
  simp only [List.mem_flatMap, List.mem_range, decide_eq_true_eq]
  constructor
  · rintro ⟨⟨k, _, hp⟩, hnd⟩
    exact ⟨hnd, (mem_tuples.mp hp).2⟩
  · rintro ⟨hnd, hsub⟩
    have hle : p.length ≤ (nodes df).length := (hnd.subperm hsub).length_le
    exact ⟨⟨p.length, by omega, mem_tuples.mpr ⟨rfl, hsub⟩⟩, hnd⟩

lemma chainB_append (df : List Edge) (l : List LocationId) (a : LocationId) :
    chainB df (l ++ [a]) =
      (chainB df l && (l.getLast?).elim true fun b => (edgeWeight df b a).isSome) := by
  induction l with
  | nil => rfl
  | cons x t ih =>
    cases t with
    | nil => simp [chainB]
    | cons y t' =>
      have e2 : ((y :: t') ++ [a]) = y :: (t' ++ [a]) := by simp
      show ((edgeWeight df x y).isSome && chainB df (y :: (t' ++ [a]))) = _
      rw [← e2, ih, List.getLast?_cons_cons]
      show _ = (((edgeWeight df x y).isSome && chainB df (y :: t')) && _)
      rw [Bool.and_assoc]

lemma chainB_reverse (df : List Edge) (p : List LocationId) :
    chainB df p.reverse = chainB df p := by
  induction p with
  | nil => rfl
  | cons x t ih =>
    rw [List.reverse_cons, chainB_append, ih, List.getLast?_reverse]
    cases t with
    | nil => rfl
    | cons y t' =>
      show (chainB df (y :: t') && (edgeWeight df y x).isSome) = _
      rw [edgeWeight_symm df y x]
      show _ = ((edgeWeight df x y).isSome && chainB df (y :: t'))
      exact Bool.and_comm _ _

lemma weightOf_append (df : List Edge) (l : List LocationId) (a : LocationId) :
    weightOf df (l ++ [a]) =
      weightOf df l + (l.getLast?).elim 0 fun b => (edgeWeight df b a).getD 0 := by
  induction l with
  | nil => simp [weightOf]
  | cons x t ih =>
    cases t with
    | nil => simp [weightOf]
    | cons y t' =>
      have e2 : ((y :: t') ++ [a]) = y :: (t' ++ [a]) := by simp
      show (edgeWeight df x y).getD 0 + weightOf df (y :: (t' ++ [a])) = _
      rw [← e2, ih, List.getLast?_cons_cons]
      show _ = (edgeWeight df x y).getD 0 + weightOf df (y :: t') + _
      rw [add_assoc]

lemma weightOf_reverse (df : List Edge) (p : List LocationId) :
    weightOf df p.reverse = weightOf df p := by
  induction p with
  | nil => rfl
  | cons x t ih =>
    rw [List.reverse_cons, weightOf_append, ih, List.getLast?_reverse]
    cases t with
    | nil => simp [weightOf]
    | cons y t' =>
      show weightOf df (y :: t') + (edgeWeight df y x).getD 0 = _
      rw [edgeWeight_symm df y x]
      show _ = (edgeWeight df x y).getD 0 + weightOf df (y :: t')
      rw [add_comm]

lemma isPathB_reverse {df : List Edge} {u v : LocationId} {p : List LocationId}
    (h : isPathB df u v p = true) : isPathB df v u p.reverse = true := by
  unfold isPathB at h ⊢
  rw [List.head?_reverse, List.getLast?_reverse, chainB_reverse]
  simp only [Bool.and_eq_true, decide_eq_true_eq] at h ⊢
  exact ⟨⟨h.1.2, h.1.1⟩, h.2⟩

lemma mem_pathsBetween_reverse {df : List Edge} {u v : LocationId} {p : List LocationId}
    (h : p ∈ pathsBetween df u v) : p.reverse ∈ pathsBetween df v u := by
  unfold pathsBetween at h ⊢
  rw [List.mem_filter] at h ⊢
  obtain ⟨hc, hp⟩ := h
  obtain ⟨hnd, hsub⟩ := mem_pathCandidates.mp hc
  exact ⟨mem_pathCandidates.mpr ⟨List.nodup_reverse.mpr hnd,
    fun x hx => hsub x (List.mem_reverse.mp hx)⟩, isPathB_reverse hp⟩

lemma connected_of_connected {df : List Edge} {u v : LocationId}
    (h : Connected df u v) : Connected df v u := by
  obtain ⟨p, hp⟩ := List.exists_mem_of_ne_nil _ h
  exact List.ne_nil_of_mem (mem_pathsBetween_reverse hp)

lemma connected_symm {df : List Edge} {u v : LocationId} :
    Connected df u v ↔ Connected df v u :=
  ⟨connected_of_connected, connected_of_connected⟩

lemma listMin_eq_none_iff {l : List ℤ} : listMin l = none ↔ l = [] := by
  cases l with
  | nil => simp [listMin]
  | cons x t => cases htl : listMin t <;> simp [listMin, htl]

lemma listMin_mem : ∀ {l : List ℤ} {a : ℤ}, listMin l = some a → a ∈ l := by
  intro l
  induction l with
  | nil => intro a h; simp [listMin] at h
  | cons x t ih =>
    intro a h
    simp only [listMin] at h
    cases htl : listMin t with
    | none =>
      rw [htl] at h
      simp at h
      subst h
      exact List.mem_cons_self _ _
    | some m =>
      rw [htl] at h
      simp at h
      rcases min_choice x m with hm | hm
      · rw [← h, hm]
        exact List.mem_cons_self _ _
      · rw [← h, hm]
        exact List.mem_cons_of_mem _ (ih htl)

lemma listMin_le : ∀ {l : List ℤ} {a b : ℤ}, listMin l = some a → b ∈ l → a ≤ b := by
  intro l
  induction l with
  | nil => intro a b h _; simp [listMin] at h
  | cons x t ih =>
    intro a b h hb
    simp only [listMin] at h
    rcases List.mem_cons.mp hb with rfl | hb
    · cases htl : listMin t with
      | none =>
        rw [htl] at h
        simp at h
        exact le_of_eq h.symm
      | some m =>
        rw [htl] at h
        simp at h
        rw [← h]
        exact min_le_left _ _
    · cases htl : listMin t with
      | none =>
        rw [listMin_eq_none_iff] at htl
        subst htl
        simp at hb
      | some m =>
        rw [htl] at h
        simp at h
        calc a = min x m := h.symm
          _ ≤ m := min_le_right _ _
          _ ≤ b := ih htl hb

lemma spDist_eq_none_iff {df : List Edge} {u v : LocationId} :
    spDist df u v = none ↔ ¬ Connected df u v := by
  unfold spDist Connected
  rw [listMin_eq_none_iff, List.map_eq_nil_iff, not_not]

lemma spDist_isSome_of_connected {df : List Edge} {u v : LocationId}
    (hc : Connected df u v) : (spDist df u v).isSome = true := by
  rcases h : spDist df u v with _ | d
  · exact absurd hc (spDist_eq_none_iff.mp h)
  · rfl

lemma spDist_eq_none_of_not_connected {df : List Edge} {u v : LocationId}
    (hc : ¬ Connected df u v) : spDist df u v = none :=
  spDist_eq_none_iff.mpr hc

lemma spDist_le_of_mem {df : List Edge} {u v : LocationId} {p : List LocationId} {a : ℤ}
    (h : spDist df u v = some a) (hp : p ∈ pathsBetween df u v) :
    a ≤ weightOf df p := by
  unfold spDist at h
  exact listMin_le h (List.mem_map_of_mem _ hp)

lemma spDist_exists_path {df : List Edge} {u v : LocationId} {a : ℤ}
    (h : spDist df u v = some a) :
    ∃ p ∈ pathsBetween df u v, weightOf df p = a := by
  unfold spDist at h
  exact List.mem_map.mp (listMin_mem h)

lemma spDist_symm (df : List Edge) (u v : LocationId) :
    spDist df u v = spDist df v u := by
  rcases h1 : spDist df u v with _ | a <;> rcases h2 : spDist df v u with _ | b
  · rfl
  · exfalso
    obtain ⟨p, hp, _⟩ := spDist_exists_path h2
    exact (spDist_eq_none_iff.mp h1) (List.ne_nil_of_mem (mem_pathsBetween_reverse hp))
  · exfalso
    obtain ⟨p, hp, _⟩ := spDist_exists_path h1
    exact (spDist_eq_none_iff.mp h2) (List.ne_nil_of_mem (mem_pathsBetween_reverse hp))
  · have hab : a ≤ b := by
      obtain ⟨p, hp, hw⟩ := spDist_exists_path h2
      have hle := spDist_le_of_mem h1 (mem_pathsBetween_reverse hp)
      rwa [weightOf_reverse, hw] at hle
    have hba : b ≤ a := by
      obtain ⟨p, hp, hw⟩ := spDist_exists_path h1
      have hle := spDist_le_of_mem h2 (mem_pathsBetween_reverse hp)
      rwa [weightOf_reverse, hw] at hle
    rw [le_antisymm hab hba]

lemma mem_tollLocations {df : List Edge} {i : LocationId} :
    i ∈ tollLocations df ↔ ∃ e ∈ df, e.id_start = i := by
  unfold tollLocations
  rw [(List.perm_insertionSort _ _).mem_iff, List.mem_dedup, List.mem_map]

lemma tollLocations_subset_nodes {df : List Edge} {i : LocationId}
    (h : i ∈ tollLocations df) : i ∈ nodes df := by
  obtain ⟨e, he, rfl⟩ := mem_tollLocations.mp h
  unfold nodes
  rw [List.mem_dedup, List.mem_append]
  exact Or.inl (List.mem_map_of_mem _ he)

lemma tollLocations_sorted (df : List Edge) :
    List.Sorted (· ≤ ·) (tollLocations df) :=
  List.sorted_insertionSort _ _

lemma tollLocations_nodup (df : List Edge) : (tollLocations df).Nodup :=
  (List.perm_insertionSort _ _).nodup_iff.mpr (List.nodup_dedup _)

lemma idxOf?_eq_some_of_mem {x : LocationId} :
    ∀ {l : List LocationId}, x ∈ l → ∃ k, idxOf? x l = some k := by
  intro l
  induction l with
  | nil => intro h; simp at h
  | cons y t ih =>
    intro h
    by_cases hy : y = x
    · exact ⟨0, by simp [idxOf?, hy]⟩
    · rcases List.mem_cons.mp h with rfl | h
      · exact absurd rfl hy
      · obtain ⟨k, hk⟩ := ih h
        exact ⟨k + 1, by simp [idxOf?, hy, hk]⟩

lemma idxOf?_getElem? {x : LocationId} :
    ∀ {l : List LocationId} {k : ℕ}, idxOf? x l = some k → l[k]? = some x := by
  intro l
  induction l with
  | nil => intro k h; simp [idxOf?] at h
  | cons y t ih =>
    intro k h
    by_cases hy : y = x
    · rw [idxOf?, if_pos hy] at h
      simp only [Option.some.injEq] at h
      subst h
      simp [hy]
    · rw [idxOf?, if_neg hy] at h
      rcases ht : idxOf? x t with _ | k'
      · rw [ht] at h
        simp at h
      · rw [ht] at h
        simp only [Option.map_some', Option.some.injEq] at h
        subst h
        rw [List.getElem?_cons_succ]
        exact ih ht

lemma getCell_calcMatrix {df : List Edge} {i j : LocationId}
    (hi : i ∈ tollLocations df) (hj : j ∈ tollLocations df) :
    getCell (calcMatrix df) i j = some (cellValue df i j) := by
  obtain ⟨a, ha⟩ := idxOf?_eq_some_of_mem hi
  obtain ⟨b, hb⟩ := idxOf?_eq_some_of_mem hj
  have ha' : (tollLocations df)[a]? = some i := idxOf?_getElem? ha
  have hb' : (tollLocations df)[b]? = some j := idxOf?_getElem? hb
  simp only [getCell, calcMatrix, ha, hb, List.getElem?_map, ha', hb', Option.map_some']

lemma cellValue_diag (df : List Edge) (i : LocationId) : cellValue df i i = some 0 := by
  simp [cellValue]

lemma cellValue_of_connected {df : List Edge} {i j : LocationId}
    (hij : i ≠ j) (hi : i ∈ nodes df) (hc : Connected df i j) :
    cellValue df i j = spDist df i j ∧ (spDist df i j).isSome = true := by
  have hsome := spDist_isSome_of_connected hc
  refine ⟨?_, hsome⟩
  unfold cellValue
  rw [if_neg hij, if_pos ⟨hi, hsome⟩]

lemma cellValue_of_not_connected {df : List Edge} {i j : LocationId}
    (hij : i ≠ j) (hc : ¬ Connected df i j) :
    cellValue df i j = none := by
  have h1 : spDist df i j = none := spDist_eq_none_of_not_connected hc
  have h2 : spDist df j i = none :=
    spDist_eq_none_of_not_connected fun h => hc (connected_symm.mp h)
  simp [cellValue, h1, h2, hij]

lemma cellValue_symm {df : List Edge} {i j : LocationId}
    (hi : i ∈ nodes df) (hj : j ∈ nodes df) :
    cellValue df i j = cellValue df j i := by
  rcases eq_or_ne i j with rfl | hij
  · rfl
  · by_cases hc : Connected df i j
    · obtain ⟨e1, _⟩ := cellValue_of_connected hij hi hc
      obtain ⟨e2, _⟩ := cellValue_of_connected hij.symm hj (connected_symm.mp hc)
      rw [e1, e2, spDist_symm]
    · rw [cellValue_of_not_connected hij hc,
        cellValue_of_not_connected hij.symm fun h => hc (connected_symm.mp h)]

/-! Theorems settling the claims. -/

/-- Claim C1, counterexample: the matrix built from the single edge
(1, 2, 5) is labelled [1] while the sorted distinct endpoints are
[1, 2] (location 2 appears only in the id_end column), so the claim that
the labels equal the sorted distinct endpoints of either column fails at
this input. -/
theorem claim_C1_counterexample :
    ¬ ((calcMatrix [⟨1, 2, 5⟩]).labels = endpointLabels [⟨1, 2, 5⟩] ∧
      isSquare (calcMatrix [⟨1, 2, 5⟩])) := by
  decide

/-- Claim C1, amended: for every non-empty input edge list the matrix is
square and its single label list (used for both rows and columns) is
sorted, duplicate-free, and holds exactly the LocationIds that appear in
the id_start column — not the ids appearing only as id_end. -/
theorem claim_C1_amended (df : List Edge) (_hne : df ≠ []) :
    isSquare (calcMatrix df) ∧
    List.Sorted (· ≤ ·) (calcMatrix df).labels ∧
    (calcMatrix df).labels.Nodup ∧
    ∀ i : LocationId, (i ∈ (calcMatrix df).labels ↔ ∃ e ∈ df, e.id_start = i) := by
  refine ⟨⟨?_, ?_⟩, tollLocations_sorted df, tollLocations_nodup df,
    fun i => mem_tollLocations⟩
  · simp [calcMatrix]
  · intro r hr
    simp only [calcMatrix, List.mem_map] at hr
    obtain ⟨i, _, rfl⟩ := hr
    simp [calcMatrix]

/-- Claim C1, witness: the amended statement at the concrete input
[(1, 2, 5)]. -/
theorem claim_C1_witness :
    (([⟨1, 2, 5⟩] : List Edge) ≠ []) ∧
    (isSquare (calcMatrix [⟨1, 2, 5⟩]) ∧
      List.Sorted (· ≤ ·) (calcMatrix [⟨1, 2, 5⟩]).labels ∧
      (calcMatrix [⟨1, 2, 5⟩]).labels.Nodup ∧
      ∀ i : LocationId,
        (i ∈ (calcMatrix [⟨1, 2, 5⟩]).labels ↔ ∃ e ∈ ([⟨1, 2, 5⟩] : List Edge), e.id_start = i)) :=
  ⟨by decide, claim_C1_amended _ (by decide)⟩

/-- Claim C2, counterexample: on the empty edge list the function does
not fail with InvalidInput — it returns the empty matrix. -/
theorem claim_C2_counterexample :
    calculate_distance_matrix [] ≠ Except.error DMErr.invalidInput :=
  fun h => Except.noConfusion h

/-- Claim C2, amended: calculate_distance_matrix performs no input
validation and never surfaces an InvalidInput error; in particular the
empty edge list is not rejected but produces the empty 0-by-0 matrix.
(Negative weights are likewise not validated by the function itself;
they are handed unchecked to the library call.) -/
theorem claim_C2_amended :
    (∀ df : List Edge, (∀ e ∈ df, 0 ≤ e.distance) →
      calculate_distance_matrix df ≠ Except.error DMErr.invalidInput) ∧
    calculate_distance_matrix [] = Except.ok ⟨[], []⟩ :=
  ⟨fun _ _ h => Except.noConfusion h, rfl⟩

/-- Claim C2, witness: the amended statement instantiated at the
concrete one-edge input (1, 2, 5), whose weights are non-negative. -/
theorem claim_C2_witness :
    (∀ e ∈ ([⟨1, 2, 5⟩] : List Edge), 0 ≤ e.distance) ∧
    calculate_distance_matrix [⟨1, 2, 5⟩] ≠ Except.error DMErr.invalidInput :=
  ⟨by decide, claim_C2_amended.1 _ (by decide)⟩

/-- Claim C3, confirmed: for every valid input (non-empty, non-negative
weights) and every pair of distinct labels i, j of the produced matrix,
the cell (i, j) holds the unknown marker exactly when i and j are not
joined by any path of the graph built from the edge list, and when they
are connected the cell holds the numeric shortest-path distance, never
the unknown marker. -/
theorem claim_C3 (df : List Edge) (_hne : df ≠ []) (_hw : ∀ e ∈ df, 0 ≤ e.distance)
    (i j : LocationId) (hi : i ∈ (calcMatrix df).labels) (hj : j ∈ (calcMatrix df).labels)
    (hij : i ≠ j) :
    (getCell (calcMatrix df) i j = some none ↔ ¬ Connected df i j) ∧
    (Connected df i j →
      ∃ d : ℤ, getCell (calcMatrix df) i j = some (some d) ∧ spDist df i j = some d) := by
  have hi' : i ∈ tollLocations df := hi
  have hj' : j ∈ tollLocations df := hj
  rw [getCell_calcMatrix hi' hj']
  constructor
  · constructor
    · intro h hc
      obtain ⟨hcell, hsome⟩ := cellValue_of_connected hij (tollLocations_subset_nodes hi') hc
      rw [hcell] at h
      rw [Option.some_inj] at h
      rw [h] at hsome
      simp at hsome
    · intro hc
      rw [cellValue_of_not_connected hij hc]
  · intro hc
    obtain ⟨hcell, hsome⟩ := cellValue_of_connected hij (tollLocations_subset_nodes hi') hc
    obtain ⟨d, hd⟩ := Option.isSome_iff_exists.mp hsome
    exact ⟨d, by rw [hcell, hd], hd⟩

/-- Claim C3, witness: the edges (1, 2, 10), (2, 3, 5) with the
connected label pair 1, 2. -/
theorem claim_C3_witness :
    (([⟨1, 2, 10⟩, ⟨2, 3, 5⟩] : List Edge) ≠ []) ∧
    (∀ e ∈ ([⟨1, 2, 10⟩, ⟨2, 3, 5⟩] : List Edge), 0 ≤ e.distance) ∧
    (1 : LocationId) ∈ (calcMatrix [⟨1, 2, 10⟩, ⟨2, 3, 5⟩]).labels ∧
    (2 : LocationId) ∈ (calcMatrix [⟨1, 2, 10⟩, ⟨2, 3, 5⟩]).labels ∧
    (1 : LocationId) ≠ 2 ∧
    ((getCell (calcMatrix [⟨1, 2, 10⟩, ⟨2, 3, 5⟩]) 1 2 = some none ↔
        ¬ Connected [⟨1, 2, 10⟩, ⟨2, 3, 5⟩] 1 2) ∧
      (Connected [⟨1, 2, 10⟩, ⟨2, 3, 5⟩] 1 2 →
        ∃ d : ℤ, getCell (calcMatrix [⟨1, 2, 10⟩, ⟨2, 3, 5⟩]) 1 2 = some (some d) ∧
          spDist [⟨1, 2, 10⟩, ⟨2, 3, 5⟩] 1 2 = some d)) :=
  ⟨by decide, by decide, by decide, by decide, by decide,
    claim_C3 _ (by decide) (by decide) 1 2 (by decide) (by decide) (by decide)⟩

/-- Claim C4, confirmed: for every valid input and every pair of
distinct labels i, j present in the matrix, the cell (i, j) equals the
cell (j, i). -/
theorem claim_C4 (df : List Edge) (_hne : df ≠ []) (_hw : ∀ e ∈ df, 0 ≤ e.distance)
    (i j : LocationId) (hi : i ∈ (calcMatrix df).labels) (hj : j ∈ (calcMatrix df).labels)
    (_hij : i ≠ j) :
    getCell (calcMatrix df) i j = getCell (calcMatrix df) j i := by
  have hi' : i ∈ tollLocations df := hi
  have hj' : j ∈ tollLocations df := hj
  rw [getCell_calcMatrix hi' hj', getCell_calcMatrix hj' hi',
    cellValue_symm (tollLocations_subset_nodes hi') (tollLocations_subset_nodes hj')]

/-- Claim C4, witness: symmetry at the edges (1, 2, 10), (2, 3, 5) for
the label pair 1, 2. -/
theorem claim_C4_witness :
    (([⟨1, 2, 10⟩, ⟨2, 3, 5⟩] : List Edge) ≠ []) ∧
    (∀ e ∈ ([⟨1, 2, 10⟩, ⟨2, 3, 5⟩] : List Edge), 0 ≤ e.distance) ∧
    getCell (calcMatrix [⟨1, 2, 10⟩, ⟨2, 3, 5⟩]) 1 2 =
      getCell (calcMatrix [⟨1, 2, 10⟩, ⟨2, 3, 5⟩]) 2 1 :=
  ⟨by decide, by decide,
    claim_C4 _ (by decide) (by decide) 1 2 (by decide) (by decide) (by decide)⟩

/-- Claim C5, confirmed: for every valid input, self-loop edges
included, every diagonal cell of the produced matrix equals 0. -/
theorem claim_C5 (df : List Edge) (_hne : df ≠ []) (_hw : ∀ e ∈ df, 0 ≤ e.distance)
    (i : LocationId) (hi : i ∈ (calcMatrix df).labels) :
    getCell (calcMatrix df) i i = some (some 0) := by
  have hi' : i ∈ tollLocations df := hi
  rw [getCell_calcMatrix hi' hi', cellValue_diag]

/-- Claim C5, witness: the diagonal cell of label 1 for an input
containing the self-loop edge (1, 1, 3). -/
theorem claim_C5_witness :
    (([⟨1, 1, 3⟩, ⟨2, 1, 4⟩] : List Edge) ≠ []) ∧
    (∀ e ∈ ([⟨1, 1, 3⟩, ⟨2, 1, 4⟩] : List Edge), 0 ≤ e.distance) ∧
    (1 : LocationId) ∈ (calcMatrix [⟨1, 1, 3⟩, ⟨2, 1, 4⟩]).labels ∧
    getCell (calcMatrix [⟨1, 1, 3⟩, ⟨2, 1, 4⟩]) 1 1 = some (some 0) :=
  ⟨by decide, by decide, by decide,
    claim_C5 _ (by decide) (by decide) 1 (by decide)⟩

/-- Claim C6, counterexample: for the duplicate-pair input
[(1, 2, 4), (1, 2, 9)] the produced matrix has no cell (1, 2) at all —
location 2 never appears in the id_start column, so it is not a label —
hence the cell does not equal 9. -/
theorem claim_C6_counterexample :
    getCell (calcMatrix [⟨1, 2, 4⟩, ⟨1, 2, 9⟩]) 1 2 ≠ some (some 9) := by
  decide

/-- Claim C6, amended: the graph weight of an unordered pair is the
weight of its last occurrence in the edge list (last-write-wins), but a
cell for the pair only exists when both locations appear in the
id_start column; for the input [(1, 2, 4), (2, 1, 9)] — the same
unordered pair twice, the second time with the endpoints swapped — the
matrix has cell (1, 2) equal to 9. -/
theorem claim_C6_amended :
    (∀ (l : List Edge) (e : Edge),
      edgeWeight (l ++ [e]) e.id_start e.id_end = some e.distance) ∧
    getCell (calcMatrix [⟨1, 2, 4⟩, ⟨2, 1, 9⟩]) 1 2 = some (some 9) := by
  constructor
  · intro l e
    unfold edgeWeight
    rw [List.reverse_append, List.reverse_singleton, List.singleton_append,
      List.find?_cons_of_pos _ (by simp [matchesPair])]
    rfl
  · decide

/-- Claim C6, witness: the last-write-wins equation instantiated at the
single edge (1, 2, 7), together with the concrete amended cell. -/
theorem claim_C6_witness :
    edgeWeight ([] ++ [(⟨1, 2, 7⟩ : Edge)]) 1 2 = some 7 ∧
    getCell (calcMatrix [⟨1, 2, 4⟩, ⟨2, 1, 9⟩]) 1 2 = some (some 9) :=
  ⟨claim_C6_amended.1 [] ⟨1, 2, 7⟩, claim_C6_amended.2⟩

/-- Claim C7, counterexample: for the input [(1, 2, 10), (2, 3, 5)]
location 3 never appears in the id_start column, so the matrix has no
cell (1, 3); the claimed value 15 is not produced. -/
theorem claim_C7_counterexample :
    getCell (calcMatrix [⟨1, 2, 10⟩, ⟨2, 3, 5⟩]) 1 3 ≠ some (some 15) := by
  decide

/-- Claim C7, amended: for the input [(1, 2, 10), (2, 3, 5)] the matrix
is labelled by [1, 2] only; the cells (1, 2) and (2, 1) hold 10, the
diagonal cells hold 0, and every cell involving location 3 is absent. -/
theorem claim_C7_amended :
    (calcMatrix [⟨1, 2, 10⟩, ⟨2, 3, 5⟩]).labels = [1, 2] ∧
    getCell (calcMatrix [⟨1, 2, 10⟩, ⟨2, 3, 5⟩]) 1 2 = some (some 10) ∧
    getCell (calcMatrix [⟨1, 2, 10⟩, ⟨2, 3, 5⟩]) 2 1 = some (some 10) ∧
    getCell (calcMatrix [⟨1, 2, 10⟩, ⟨2, 3, 5⟩]) 1 1 = some (some 0) ∧
    getCell (calcMatrix [⟨1, 2, 10⟩, ⟨2, 3, 5⟩]) 2 2 = some (some 0) ∧
    getCell (calcMatrix [⟨1, 2, 10⟩, ⟨2, 3, 5⟩]) 1 3 = none ∧
    getCell (calcMatrix [⟨1, 2, 10⟩, ⟨2, 3, 5⟩]) 2 3 = none ∧
    getCell (calcMatrix [⟨1, 2, 10⟩, ⟨2, 3, 5⟩]) 3 3 = none := by
  decide

/-- Claim C8, confirmed: multiply_matrix leaves its argument unchanged
and returns the grid in which every cell x is replaced by
round(x * 0.75, 1) when x > 20 and by round(x * 1.25, 1) otherwise. -/
theorem claim_C8 (input_matrix : Grid) :
    (multiply_matrix input_matrix).1 =
      input_matrix.map (List.map fun x =>
        if x > 20 then round1 (x * 0.75) else round1 (x * 1.25)) ∧
    (multiply_matrix input_matrix).2 = input_matrix := by
  refine ⟨?_, rfl⟩
  simp only [multiply_matrix, List.map_map]
  congr 1
  funext l
  simp only [Function.comp_apply, List.map_map]
  congr 1
  funext x
  simp only [Function.comp_apply, applymapFn, apply_ite round1]

/-- Claim C8, witness: the statement instantiated at the one-row grid
[[30, 10]]. -/
theorem claim_C8_witness :
    (multiply_matrix [[(30 : ℚ), 10]]).1 =
      ([[(30 : ℚ), 10]] : Grid).map (List.map fun x =>
        if x > 20 then round1 (x * 0.75) else round1 (x * 1.25)) ∧
    (multiply_matrix [[(30 : ℚ), 10]]).2 = [[(30 : ℚ), 10]] :=
  claim_C8 [[(30 : ℚ), 10]]

/-- Claim C9, confirmed: get_type_count buckets with right-closed
boundaries — low exactly when x ≤ 15, medium exactly when 15 < x ≤ 25,
high exactly when x > 25 — and the returned keys are exactly high, low,
medium in ascending alphabetical order. -/
theorem claim_C9 (car : List ℚ) :
    get_type_count car =
      [("high", (car.filter fun x => decide (25 < x)).length),
       ("low", (car.filter fun x => decide (x ≤ 15)).length),
       ("medium", (car.filter fun x => decide (15 < x ∧ x ≤ 25)).length)] ∧
    (get_type_count car).map Prod.fst = ["high", "low", "medium"] ∧
    List.Sorted (fun a b : String => strLe a b = true)
      ((get_type_count car).map Prod.fst) := by
  have hH : ∀ x : ℚ, (carType x = "high") ↔ 25 < x := by
    intro x
    unfold carType
    split_ifs with h1 h2
    · constructor
      · intro h; exact absurd h (by decide)
      · intro h; exact absurd (le_trans h1 (by norm_num)) (not_le.mpr h)
    · constructor
      · intro h; exact absurd h (by decide)
      · intro h; exact absurd h2 (not_le.mpr h)
    · simp [not_le.mp h2]
  have hL : ∀ x : ℚ, (carType x = "low") ↔ x ≤ 15 := by
    intro x
    unfold carType
    split_ifs with h1 h2
    · simp [h1]
    · constructor
      · intro h; exact absurd h (by decide)
      · intro h; exact absurd h h1
    · constructor
      · intro h; exact absurd h (by decide)
      · intro h; exact absurd h h1
  have hM : ∀ x : ℚ, (carType x = "medium") ↔ 15 < x ∧ x ≤ 25 := by
    intro x
    unfold carType
    split_ifs with h1 h2
    · constructor
      · intro h; exact absurd h (by decide)
      · rintro ⟨h, _⟩; exact absurd h (not_lt.mpr h1)
    · simp [not_le.mp h1, h2]
    · constructor
      · intro h; exact absurd h (by decide)
      · rintro ⟨_, h⟩; exact absurd h h2
  have fH : (car.filter fun x => decide (carType x = "high")) =
      car.filter fun x => decide (25 < x) :=
    List.filter_congr fun x _ => by rw [decide_eq_decide]; exact hH x
  have fL : (car.filter fun x => decide (carType x = "low")) =
      car.filter fun x => decide (x ≤ 15) :=
    List.filter_congr fun x _ => by rw [decide_eq_decide]; exact hL x
  have fM : (car.filter fun x => decide (carType x = "medium")) =
      car.filter fun x => decide (15 < x ∧ x ≤ 25) :=
    List.filter_congr fun x _ => by rw [decide_eq_decide]; exact hM x
  have hsort : List.insertionSort (fun a b => strLe a b = true) categoryLabels =
      ["high", "low", "medium"] := by decide
  have hmain : get_type_count car =
      [("high", (car.filter fun x => decide (25 < x)).length),
       ("low", (car.filter fun x => decide (x ≤ 15)).length),
       ("medium", (car.filter fun x => decide (15 < x ∧ x ≤ 25)).length)] := by
    unfold get_type_count
    rw [hsort]
    simp only [List.map_cons, List.map_nil]
    rw [fH, fL, fM]
  refine ⟨hmain, ?_, ?_⟩
  · rw [hmain]
    rfl
  · rw [hmain]
    show List.Sorted (fun a b : String => strLe a b = true) ["high", "low", "medium"]
    decide

/-- Claim C9, witness: the statement instantiated at the one-element car
column [16]. -/
theorem claim_C9_witness :
    get_type_count [(16 : ℚ)] =
      [("high", (([(16 : ℚ)]).filter fun x => decide (25 < x)).length),
       ("low", (([(16 : ℚ)]).filter fun x => decide (x ≤ 15)).length),
       ("medium", (([(16 : ℚ)]).filter fun x => decide (15 < x ∧ x ≤ 25)).length)] ∧
    (get_type_count [(16 : ℚ)]).map Prod.fst = ["high", "low", "medium"] ∧
    List.Sorted (fun a b : String => strLe a b = true)
      ((get_type_count [(16 : ℚ)]).map Prod.fst) :=
  claim_C9 [(16 : ℚ)]

/-- Claim C10, confirmed: unroll_distance_matrix resolves the free
global name distance_matrix in the module environment, where it is
unbound, so every call fails with a NameError and the df argument is
never consulted. -/
theorem claim_C10 (df : DistanceMatrix) :
    unroll_distance_matrix moduleFrameEnv df =
      Except.error (PyErr.nameError ("distance_matrix")) := rfl

/-- Claim C10, witness: the statement instantiated at the empty
DataFrame. -/
theorem claim_C10_witness :
    unroll_distance_matrix moduleFrameEnv ⟨[], []⟩ =
      Except.error (PyErr.nameError ("distance_matrix")) :=
  claim_C10 ⟨[], []⟩

end Submission
